import Mathlib

/-!
# Verification of the anna-dl book downloader

A shallow embedding in Lean 4 of the core logic of the `anna-dl` Rust
program: the HTML result/link parser (`src/scraper.rs`), the search cache
(`src/cache.rs`), the search client (`src/scraper.rs`), the download
filename resolution and streaming loop (`src/downloader.rs`), and the
terminal UI state machine (`src/ui/app.rs` together with the command loop
of `src/main.rs`).  Pure Rust functions become Lean functions; the DOM
produced by the external HTML parser is modelled as a tree; the SQLite
cache is modelled as an association list of rows; asynchronous command
results are modelled as explicit steps of a transition relation.
-/

namespace AnnaDl

/-! ## String utilities

Models of the Rust standard-library / crate string operations the source
relies on.  `strContains` models `str::contains` (substring containment);
`percentDecode` models `urlencoding::decode(..).unwrap_or_default()`
(percent-escape decoding followed by UTF-8 validation, yielding `""` when
the decoded bytes are not valid UTF-8); `trimQuotes` models
`str::trim_matches('"')`.
-/

/-- Substring containment, modelling Rust `str::contains(&str)`. -/
def strContains (hay needle : String) : Bool :=
  let h := hay.toList
  let n := needle.toList
  (List.range (h.length + 1)).any fun i => n.isPrefixOf (h.drop i)

/-- Does `s` start with `p`, modelling Rust `str::starts_with`. -/
def startsWithStr (s p : String) : Bool :=
  p.toList.isPrefixOf s.toList

/-- Strip a literal prefix, modelling Rust `str::strip_prefix`. -/
def stripPre (p s : String) : Option String :=
  if p.toList.isPrefixOf s.toList then some ⟨s.toList.drop p.toList.length⟩ else none

/-- Split on a separator character, modelling Rust `str::split(char)`
(which keeps empty pieces, including a trailing one). -/
def splitCharList (sep : Char) : List Char → List (List Char)
  | [] => [[]]
  | c :: rest =>
    match splitCharList sep rest with
    | h :: t => if c = sep then [] :: h :: t else (c :: h) :: t
    | [] => if c = sep then [[], []] else [[c]]

def splitChar (sep : Char) (s : String) : List String :=
  (splitCharList sep s.toList).map (⟨·⟩)

/-- Whitespace trim, modelling Rust `str::trim` at the ASCII level. -/
def rustTrim (s : String) : String :=
  let l := s.toList.dropWhile Char.isWhitespace
  ⟨(l.reverse.dropWhile Char.isWhitespace).reverse⟩

/-- ASCII-level model of Rust `str::to_lowercase`. -/
def lowerStr (s : String) : String := ⟨s.toList.map Char.toLower⟩

/-- Remove all leading and trailing double quotes, modelling
`str::trim_matches('"')`. -/
def trimQuotes (s : String) : String :=
  let l := (s.toList.dropWhile (· = '"')).reverse
  ⟨(l.dropWhile (· = '"')).reverse⟩

/-- Value of a hex digit, if any. -/
def hexDigit? (c : Char) : Option Nat :=
  if '0' ≤ c ∧ c ≤ '9' then some (c.toNat - '0'.toNat)
  else if 'a' ≤ c ∧ c ≤ 'f' then some (c.toNat - 'a'.toNat + 10)
  else if 'A' ≤ c ∧ c ≤ 'F' then some (c.toNat - 'A'.toNat + 10)
  else none

/-- UTF-8 encoding of a single character, as a byte list. -/
def utf8Enc (c : Char) : List Nat :=
  let n := c.toNat
  if n < 0x80 then [n]
  else if n < 0x800 then [0xC0 ||| (n >>> 6), 0x80 ||| (n &&& 0x3F)]
  else if n < 0x10000 then
    [0xE0 ||| (n >>> 12), 0x80 ||| ((n >>> 6) &&& 0x3F), 0x80 ||| (n &&& 0x3F)]
  else
    [0xF0 ||| (n >>> 18), 0x80 ||| ((n >>> 12) &&& 0x3F),
     0x80 ||| ((n >>> 6) &&& 0x3F), 0x80 ||| (n &&& 0x3F)]

/-- Is `b` a UTF-8 continuation byte `10xxxxxx`? -/
def isCont (b : Nat) : Bool := 0x80 ≤ b ∧ b < 0xC0

/-- Decode a UTF-8 byte list into characters; `none` on invalid UTF-8. -/
def utf8Dec : List Nat → Option (List Char)
  | [] => some []
  | b :: bs =>
    if b < 0x80 then
      (utf8Dec bs).map (Char.ofNat b :: ·)
    else if 0xC0 ≤ b ∧ b < 0xE0 then
      match bs with
      | b1 :: bs' =>
        if isCont b1 then
          let n := ((b - 0xC0) <<< 6) + (b1 - 0x80)
          if 0x80 ≤ n then (utf8Dec bs').map (Char.ofNat n :: ·) else none
        else none
      | _ => none
    else if 0xE0 ≤ b ∧ b < 0xF0 then
      match bs with
      | b1 :: b2 :: bs' =>
        if isCont b1 ∧ isCont b2 then
          let n := ((b - 0xE0) <<< 12) + ((b1 - 0x80) <<< 6) + (b2 - 0x80)
          if 0x800 ≤ n ∧ ¬(0xD800 ≤ n ∧ n < 0xE000) then
            (utf8Dec bs').map (Char.ofNat n :: ·)
          else none
        else none
      | _ => none
    else if 0xF0 ≤ b ∧ b < 0xF5 then
      match bs with
      | b1 :: b2 :: b3 :: bs' =>
        if isCont b1 ∧ isCont b2 ∧ isCont b3 then
          let n := ((b - 0xF0) <<< 18) + ((b1 - 0x80) <<< 12) +
                   ((b2 - 0x80) <<< 6) + (b3 - 0x80)
          if 0x10000 ≤ n ∧ n < 0x110000 then
            (utf8Dec bs').map (Char.ofNat n :: ·)
          else none
        else none
      | _ => none
    else none

/-- Turn a percent-encoded character list into bytes; a `%` followed by two
hex digits becomes one byte, anything else passes through as its UTF-8
bytes (as the `urlencoding` crate does with malformed escapes). -/
def pctBytes : List Char → List Nat
  | [] => []
  | '%' :: c1 :: c2 :: rest =>
    match hexDigit? c1, hexDigit? c2 with
    | some h1, some h2 => (h1 * 16 + h2) :: pctBytes rest
    | _, _ => utf8Enc '%' ++ pctBytes (c1 :: c2 :: rest)
  | c :: rest => utf8Enc c ++ pctBytes rest

/-- Model of `urlencoding::decode(s).unwrap_or_default().to_string()`:
percent-decode, then UTF-8-validate; invalid UTF-8 yields `""`. -/
def percentDecode (s : String) : String :=
  match utf8Dec (pctBytes s.toList) with
  | some cs => ⟨cs⟩
  | none => ""

/-! ## DOM model

The source parses HTML with the external `scraper` crate
(`Html::parse_document`), which is total: malformed input is
error-recovered into a document tree.  We model the resulting document as
a tree of element and text nodes.  Element `id` and `class` attributes are
kept as separate fields (as the `scraper` crate exposes them); other
attributes such as `href` live in `attrs`.
-/

structure ElemData where
  tag : String
  id : Option String := none
  classes : List String := []
  attrs : List (String × String) := []
  deriving Repr, DecidableEq

inductive Node where
  | elem (data : ElemData) (children : List Node)
  | text (s : String)

/-- `attr` lookup on an element, modelling `element.value().attr(name)`. -/
def ElemData.attr (e : ElemData) (name : String) : Option String :=
  (e.attrs.find? (·.1 = name)).map (·.2)

mutual
/-- All text in a subtree, concatenated in document order: models
`ElementRef::text().collect::<String>()`. -/
def textOf : Node → String
  | .text s => s
  | .elem _ cs => textOfList cs

def textOfList : List Node → String
  | [] => ""
  | n :: ns => textOf n ++ textOfList ns
end

/-! ### Selectors

Only the selector forms appearing in `src/scraper.rs` are modelled: a tag
with required classes, an attribute-substring test `[attr*='v']`, an
attribute-equality test `[attr='v']`, an id test `#i`, a class test, and
the one descendant combinator `.book-title a`.
-/

structure SimpleSel where
  tag : Option String := none
  classes : List String := []
  id : Option String := none
  attrHas : Option (String × String) := none
  attrEq : Option (String × String) := none
  deriving Repr, DecidableEq

inductive Sel where
  | simple (s : SimpleSel)
  | descendant (ancestor : SimpleSel) (child : SimpleSel)
  deriving Repr, DecidableEq

def matchesSimple (e : ElemData) (s : SimpleSel) : Bool :=
  (match s.tag with | none => true | some t => e.tag == t) &&
  (s.classes.all (e.classes.contains ·)) &&
  (match s.id with | none => true | some i => e.id == some i) &&
  (match s.attrHas with
   | none => true
   | some (a, v) => match e.attr a with
     | some w => strContains w v
     | none => false) &&
  (match s.attrEq with
   | none => true
   | some (a, v) => e.attr a == some v)

/-- A selected element together with its children (for `.text()`) and its
element ancestors, nearest first (for the parent walk). -/
structure Loc where
  data : ElemData
  children : List Node
  ancestors : List (ElemData × List Node)

def matchesSel (e : ElemData) (anc : List (ElemData × List Node)) : Sel → Bool
  | .simple s => matchesSimple e s
  | .descendant a c => matchesSimple e c ∧ anc.any (fun p => matchesSimple p.1 a)

mutual
/-- Pre-order document traversal collecting matching elements, modelling
`Html::select` / `ElementRef::select` iteration order. -/
def selNode (sel : Sel) (anc : List (ElemData × List Node)) : Node → List Loc
  | .text _ => []
  | .elem e cs =>
    (if matchesSel e anc sel then [⟨e, cs, anc⟩] else []) ++
      selList sel ((e, cs) :: anc) cs

def selList (sel : Sel) (anc : List (ElemData × List Node)) : List Node → List Loc
  | [] => []
  | n :: ns => selNode sel anc n ++ selList sel anc ns
end

/-- `document.select(&selector)` over a whole document. -/
def select (doc : Node) (sel : Sel) : List Loc := selNode sel [] doc

/-- `section.select(&selector)`: traversal of the descendants of a located
element (the section element itself is not a candidate). -/
def selectIn (loc : Loc) (sel : Sel) : List Loc :=
  selList sel ((loc.data, loc.children) :: loc.ancestors) loc.children

/-! ## Metadata extractor (`src/scraper.rs`, `extract_*`)

The Rust code uses the `regex` crate; the four patterns are simple enough
to model directly with leftmost-match scans.  Regex word characters
(`\w`, `\b`), digits and whitespace are modelled at the ASCII level
(`Char.isAlphanum`/`isDigit`/`isWhitespace`), matching the regex crate
on all ASCII input.
-/

def isWordChar (c : Char) : Bool := c.isAlphanum || c = '_'

/-- Does `\b(19|20)\d{2}\b` match at the head of `l` (boundary before the
head is checked by the caller)? -/
def yearAt : List Char → Bool
  | a :: b :: c :: d :: rest =>
    ((a = '1' && b = '9') || (a = '2' && b = '0')) && c.isDigit && d.isDigit &&
    (match rest with | [] => true | e :: _ => !isWordChar e)
  | _ => false

def yearScan (prevWord : Bool) : List Char → Option String
  | [] => none
  | c :: rest =>
    if !prevWord && yearAt (c :: rest) then some ⟨(c :: rest).take 4⟩
    else yearScan (isWordChar c) rest

/-- `extract_year`: first match of `\b(19|20)\d{2}\b`. -/
def extract_year (text : String) : Option String := yearScan false text.toList

/-- Does `(\w+)\s+\[([a-z]{2})\]` match at the head of `l`?  Returns
capture group 1 (the word). -/
def langAt (l : List Char) : Option String :=
  let (w, r1) := l.span isWordChar
  if w.isEmpty then none
  else
    let (ws, r2) := r1.span (·.isWhitespace)
    if ws.isEmpty then none
    else match r2 with
      | '[' :: a :: b :: ']' :: _ =>
        if ('a' ≤ a && a ≤ 'z') && ('a' ≤ b && b ≤ 'z') then some ⟨w⟩ else none
      | _ => none

def langScan : List Char → Option String
  | [] => none
  | c :: rest =>
    match langAt (c :: rest) with
    | some w => some w
    | none => langScan rest

/-- `extract_language`: group 1 of the first match of
`(\w+)\s+\[([a-z]{2})\]`. -/
def extract_language (text : String) : Option String := langScan text.toList

def formatAlternatives : List String := ["EPUB", "PDF", "MOBI", "AZW3", "TXT", "DOC", "DOCX"]

/-- First alternative of `\b(EPUB|PDF|MOBI|AZW3|TXT|DOC|DOCX)\b` matching
at the head of `l` with a word boundary after it. -/
def fmtAt (l : List Char) : Option String :=
  formatAlternatives.find? fun f =>
    f.toList.isPrefixOf l &&
    (match l.drop f.toList.length with | [] => true | c :: _ => !isWordChar c)

def fmtScan (prevWord : Bool) : List Char → Option String
  | [] => none
  | c :: rest =>
    if prevWord then fmtScan (isWordChar c) rest
    else match fmtAt (c :: rest) with
      | some f => some f
      | none => fmtScan (isWordChar c) rest

/-- `extract_format`: first match of the closed format vocabulary as a
bounded word. -/
def extract_format (text : String) : Option String := fmtScan false text.toList

/-- Does `(\d+\.?\d*\s*[MKG]B)` match at the head of `l`?  Returns the
matched substring. -/
def sizeAt (l : List Char) : Option String :=
  let (d1, r1) := l.span Char.isDigit
  if d1.isEmpty then none
  else
    let (dot, r2) := match r1 with
      | '.' :: t => ([('.' : Char)], t)
      | _ => (([] : List Char), r1)
    let (d2, r3) := r2.span Char.isDigit
    let (ws, r4) := r3.span (·.isWhitespace)
    match r4 with
    | u :: 'B' :: _ =>
      if u = 'M' || u = 'K' || u = 'G' then some ⟨d1 ++ dot ++ d2 ++ ws ++ [u, 'B']⟩
      else none
    | _ => none

def sizeScan : List Char → Option String
  | [] => none
  | c :: rest =>
    match sizeAt (c :: rest) with
    | some s => some s
    | none => sizeScan rest

/-- `extract_size`: first match of `(\d+\.?\d*\s*[MKG]B)`. -/
def extract_size (text : String) : Option String := sizeScan text.toList

/-- The per-line filter of `extract_author`: under 50 bytes, no leading
`[`, no `http`, only alphabetic/whitespace/comma/period characters. -/
def authorLineOk (line : String) : Bool :=
  line.utf8ByteSize < 50 && !(startsWithStr line "[") && !(strContains line "http") &&
  line.toList.all fun c => c.isAlpha || c.isWhitespace || c = ',' || c = '.'

def authorGo (exclude : String) : List String → Option String
  | [] => none
  | l :: ls =>
    let l := rustTrim l
    if l = "" || l = exclude then authorGo exclude ls
    else if authorLineOk l then some l
    else authorGo exclude ls

/-- `extract_author`: first qualifying line of the text, skipping the
title line and blank lines.  (`str::lines` splits on `\n`; the possible
trailing empty piece of `split` is skipped by the blank-line rule, and a
trailing `\r` is removed by the `trim`.) -/
def extract_author (text exclude : String) : Option String :=
  authorGo exclude (splitChar '\n' text)

/-! ## Result parser (`src/scraper.rs`) -/

structure Book where
  title : String
  author : Option String := none
  year : Option String := none
  language : Option String := none
  format : Option String := none
  size : Option String := none
  url : String
  deriving Repr, DecidableEq

structure DownloadLink where
  text : String
  url : String
  source : String
  deriving Repr, DecidableEq

/-- `DownloadLink::is_reliable`. -/
def DownloadLink.is_reliable (l : DownloadLink) : Bool :=
  l.source == "LibGen" && strContains (lowerStr l.text) "libgen"

/-- The ranked fallback selectors for book-title anchors, in source
order: `a.js-vim-focus.custom-a`, `a[href*='md5']`, `.book-title a`,
`a[href*='book']`. -/
def bookSelectors : List Sel :=
  [ .simple { tag := some "a", classes := ["js-vim-focus", "custom-a"] },
    .simple { tag := some "a", attrHas := some ("href", "md5") },
    .descendant { classes := ["book-title"] } { tag := some "a" },
    .simple { tag := some "a", attrHas := some ("href", "book") } ]

/-- The class test of `find_book_container`: a class equal to
`book-item` or `flex`, or containing `border` or `pt-3`. -/
def isBookContainer (e : ElemData) : Bool :=
  e.classes.any fun c =>
    c == "book-item" || c == "flex" || strContains c "border" || strContains c "pt-3"

/-- `find_book_container`: walk up at most 5 element ancestors and return
the first carrying a container class signal. -/
def find_book_container (loc : Loc) : Option (ElemData × List Node) :=
  (loc.ancestors.take 5).find? fun p => isBookContainer p.1

def elemText (p : ElemData × List Node) : String := textOfList p.2

/-- `extract_book_info`: `None` when the anchor has no `href`, when its
title text is empty, or when no container is found within 5 levels. -/
def extract_book_info (loc : Loc) : Option Book :=
  match loc.data.attr "href" with
  | none => none
  | some href =>
    let title := rustTrim (textOfList loc.children)
    if title = "" then none
    else match find_book_container loc with
      | none => none
      | some container =>
        let ctext := elemText container
        some { title := title
               author := extract_author ctext title
               year := extract_year ctext
               language := extract_language ctext
               format := extract_format ctext
               size := extract_size ctext
               url := "https://annas-archive.org" ++ href }

/-- The selector loop of `parse_search_results`: first selector whose
(truncated) match list is non-empty wins; at most `maxResults` of its
elements are mapped through `extract_book_info`. -/
def searchGo (doc : Node) (maxResults : Nat) : List Sel → List Book
  | [] => []
  | s :: rest =>
    let elements := (select doc s).take (maxResults * 2)
    if elements.isEmpty then searchGo doc maxResults rest
    else (elements.take maxResults).filterMap extract_book_info

/-- `parse_search_results` (the Rust function returns `Result` but has no
failing path). -/
def parse_search_results (doc : Node) (maxResults : Nat) : Except String (List Book) :=
  .ok (searchGo doc maxResults bookSelectors)

/-- `detect_source`: LibGen checked before the origin's own domain signal
before Mirror. -/
def detect_source (href : String) : String :=
  if strContains href "libgen" then "LibGen"
  else if strContains href "annas" then "Anna's Archive"
  else if strContains href "mirror" then "Mirror"
  else "Unknown"

/-- `extract_download_link`: `None` only when the anchor has no `href`. -/
def extract_download_link (loc : Loc) : Option DownloadLink :=
  (loc.data.attr "href").map fun href =>
    { text := rustTrim (textOfList loc.children), url := href, source := detect_source href }

/-- Section selectors of `parse_download_links`, in source order. -/
def sectionSelectors : List Sel :=
  [ .simple { id := some "external-downloads" },
    .simple { classes := ["external-downloads"] },
    .simple { attrEq := some ("data-section", "downloads") } ]

/-- Link selectors used inside a section by `extract_links_from_section`. -/
def sectionLinkSelectors : List Sel :=
  [ .simple { tag := some "a", attrHas := some ("href", "libgen") },
    .simple { tag := some "a", attrHas := some ("href", "download") },
    .simple { tag := some "a", classes := ["download-link"] },
    .simple { tag := some "a", attrHas := some ("href", "mirror") } ]

/-- Whole-document fallback link selectors of `parse_download_links`. -/
def fallbackLinkSelectors : List Sel :=
  [ .simple { tag := some "a", attrHas := some ("href", "libgen") },
    .simple { tag := some "a", attrHas := some ("href", "download") },
    .simple { tag := some "a", attrHas := some ("href", "mirror") },
    .simple { tag := some "a", attrHas := some ("href", "get.php") },
    .simple { classes := ["download-link"] } ]

/-- The `seen_urls` HashSet loop: keep a link when its URL was not seen
before, threading the seen set left to right. -/
def dlDedup (seen : List String) : List DownloadLink → List DownloadLink
  | [] => []
  | l :: ls =>
    if seen.contains l.url then dlDedup seen ls
    else l :: dlDedup (l.url :: seen) ls

/-- The candidate links of one section, in selector-major document order. -/
def sectionCandidates (sec : Loc) : List DownloadLink :=
  (sectionLinkSelectors.map fun s => (selectIn sec s).filterMap extract_download_link).flatten

/-- `extract_links_from_section`: per-section deduplication with a fresh
seen set. -/
def extract_links_from_section (sec : Loc) : List DownloadLink :=
  dlDedup [] (sectionCandidates sec)

/-- The candidate links of the whole-document fallback scan. -/
def fallbackCandidates (doc : Node) : List DownloadLink :=
  (fallbackLinkSelectors.map fun s => (select doc s).filterMap extract_download_link).flatten

/-- The section accumulation loop of `parse_download_links`: every section
selector that finds a first element contributes that element's links
(there is no `break` after a hit). -/
def sectionLinks (doc : Node) : List DownloadLink :=
  sectionSelectors.foldl
    (fun acc s =>
      match (select doc s).head? with
      | some sec => acc ++ extract_links_from_section sec
      | none => acc)
    []

/-- `parse_download_links` (the Rust function returns `Result` but has no
failing path). -/
def parse_download_links (doc : Node) : Except String (List DownloadLink) :=
  let links := sectionLinks doc
  .ok (if links.isEmpty then dlDedup [] (fallbackCandidates doc) else links)

/-! ## Search cache (`src/cache.rs`)

The cache is a SQLite table `search_results (query TEXT PRIMARY KEY,
results TEXT, timestamp INTEGER)`; we model it as an association list of
rows keyed by query.  `serde_json` serialization of a `Vec<Book>` is
modelled by a JSON value tree (`J`) with `Option` fields serialized as
`null` / string, exactly the shape `#[derive(Serialize, Deserialize)]`
produces.  Rust `u64` subtraction `now - timestamp` panics on underflow
(debug semantics), modelled by `checkedSub` returning `none`; the outer
`Option` of `cacheGet` is that panic.
-/

inductive J where
  | null
  | str (s : String)
  | arr (xs : List J)
  | obj (fields : List (String × J))

def optStrJ : Option String → J
  | none => J.null
  | some s => J.str s

def encodeBook (b : Book) : J :=
  .obj [("title", .str b.title), ("author", optStrJ b.author),
        ("year", optStrJ b.year), ("language", optStrJ b.language),
        ("format", optStrJ b.format), ("size", optStrJ b.size),
        ("url", .str b.url)]

def encodeBooks (bs : List Book) : J := .arr (bs.map encodeBook)

def jStr? : J → Option String
  | .str s => some s
  | _ => none

def jOptStr? : J → Option (Option String)
  | .null => some none
  | .str s => some (some s)
  | _ => none

def jField (fields : List (String × J)) (k : String) : Option J :=
  (fields.find? (·.1 = k)).map (·.2)

def decodeBook : J → Option Book
  | .obj fields => do
    let title ← jField fields "title" >>= jStr?
    let author ← jField fields "author" >>= jOptStr?
    let year ← jField fields "year" >>= jOptStr?
    let language ← jField fields "language" >>= jOptStr?
    let format ← jField fields "format" >>= jOptStr?
    let size ← jField fields "size" >>= jOptStr?
    let url ← jField fields "url" >>= jStr?
    pure { title, author, year, language, format, size, url }
  | _ => none

def decodeBooks : J → Option (List Book)
  | .arr xs => xs.mapM decodeBook
  | _ => none

/-- One cache row: query, serialized results, insertion timestamp. -/
structure CacheRow where
  query : String
  results : J
  timestamp : Nat

abbrev CacheState := List CacheRow

/-- `u64` subtraction: `none` models the arithmetic-underflow panic. -/
def checkedSub (a b : Nat) : Option Nat :=
  if b ≤ a then some (a - b) else none

/-- The 24-hour freshness window, in seconds. -/
def freshnessWindow : Nat := 24 * 60 * 60

/-- `SearchCache::set`: `INSERT OR REPLACE` keyed by the exact query. -/
def cacheSet (st : CacheState) (q : String) (books : List Book) (now : Nat) : CacheState :=
  ⟨q, encodeBooks books, now⟩ :: st.filter (fun r => r.query ≠ q)

/-- `SearchCache::get`.  Outer `Option`: `none` models the `now - timestamp`
underflow panic.  Inner `Except`: the `Result`; a malformed serialized
entry is an error, a missing or expired row is `Ok(None)`. -/
def cacheGet (st : CacheState) (q : String) (now : Nat) :
    Option (Except String (Option (List Book))) :=
  match st.find? (fun r => r.query = q) with
  | none => some (.ok none)
  | some row =>
    match checkedSub now row.timestamp with
    | none => none
    | some age =>
      if age > freshnessWindow then some (.ok none)
      else match decodeBooks row.results with
        | some books => some (.ok (some books))
        | none => some (.error "Failed to deserialize cached results")

/-! ## Search client (`AnnaScraper::search`)

The HTTP fetch and the cache handle are external effects; the model takes
their outcomes as parameters: `cacheHit` is the value of
`cache.get(query)` when a cache is configured (`none` = no cache),
`fetched` is the outcome of `fetch_html` (transport or HTTP-status errors
are its `error` case), and `setResult` is the outcome of the
`cache.set` call, whose value the source discards (`let _ = ...`).  The
output records the returned value, whether the network was used, and what
was written back to the cache.
-/

instance {ε α : Type} [DecidableEq ε] [DecidableEq α] : DecidableEq (Except ε α)
  | .ok a, .ok b =>
    if h : a = b then .isTrue (by rw [h]) else .isFalse (by intro hc; cases hc; exact h rfl)
  | .error a, .error b =>
    if h : a = b then .isTrue (by rw [h]) else .isFalse (by intro hc; cases hc; exact h rfl)
  | .ok _, .error _ => .isFalse (by intro hc; cases hc)
  | .error _, .ok _ => .isFalse (by intro hc; cases hc)

structure SearchOutcome where
  result : Except String (List Book)
  usedNetwork : Bool
  cacheWritten : Option (List Book)
  deriving DecidableEq

def searchFetchPath (fetched : Except String Node) (maxResults : Nat) : SearchOutcome :=
  match fetched with
  | .error e => ⟨.error e, true, none⟩
  | .ok doc =>
    let books := searchGo doc maxResults bookSelectors
    ⟨.ok books, true, if books.isEmpty then none else some books⟩

def search (cacheHit : Option (Except String (Option (List Book))))
    (fetched : Except String Node) (setResult : Except String Unit)
    (maxResults : Nat) : SearchOutcome :=
  match cacheHit with
  | some (.ok (some books)) =>
    if books.length ≥ maxResults then ⟨.ok (books.take maxResults), false, none⟩
    else searchFetchPath fetched maxResults
  | _ => searchFetchPath fetched maxResults

/-! ## Transfer engine (`src/downloader.rs`) -/

/-- `extract_filename_from_url`: last `/`-separated segment, kept only if
non-empty and free of `?`, then percent-decoded. -/
def extract_filename_from_url (url : String) : Option String :=
  (((splitChar '/' url).getLast?).filter
    (fun s => !s.isEmpty && !s.toList.contains '?')).map percentDecode

/-- `parse_content_disposition`: scan the `;`-separated parts; a
`filename=` part returns its (quote-trimmed, percent-decoded) value; a
`filename*=` part returns its value only when it literally continues
`UTF-8''` — otherwise the `?` operator aborts the whole function with
`None`, later parts notwithstanding. -/
def parse_content_disposition (disposition : String) : Option String :=
  go (splitChar ';' disposition)
where
  go : List String → Option String
    | [] => none
    | p :: rest =>
      let p := rustTrim p
      if startsWithStr p "filename=" then
        some (percentDecode (trimQuotes ⟨p.toList.drop 9⟩))
      else if startsWithStr p "filename*=" then
        (stripPre "filename*=UTF-8''" p).map percentDecode
      else go rest

/-- `determine_filename`: caller-supplied name, then URL segment, then
`Content-Disposition` (a missing header or one that fails `to_str` is
`none`), then the timestamped fallback. -/
def determine_filename (url : String) (providedName : Option String)
    (dispositionHeader : Option String) (nowSecs : Nat) : String :=
  match providedName with
  | some name => name
  | none =>
    match extract_filename_from_url url with
    | some filename => filename
    | none =>
      match dispositionHeader >>= parse_content_disposition with
      | some name => name
      | none => "downloaded_file_" ++ toString nowSecs ++ ".tmp"

/-- The cumulative progress counter of the streaming loop: after each
chunk, `downloaded = min(downloaded + chunk.len(), total_size)`. -/
def progressTrace (total : Nat) (downloaded : Nat) : List Nat → List Nat
  | [] => []
  | c :: cs =>
    let d := min (downloaded + c) total
    d :: progressTrace total d cs

/-- `Downloader::download`, up to the chunk loop: the content length is
demanded before the filename is resolved, the directory created, or the
file opened.  The result carries the sequence of chunk sizes written and
the progress-counter value after each chunk. -/
def download (contentLength : Option Nat) (chunks : List Nat) :
    Except String (List Nat × List Nat) :=
  match contentLength with
  | none => .error "Failed to get content length"
  | some total => .ok (chunks, progressTrace total 0 chunks)

/-! ## Interaction controller (`src/ui/app.rs` and `src/main.rs`)

The `App` state and its key handlers are embedded directly.  Rust list
indexing `v[i]` panics when out of bounds; the handlers therefore return
`Option`, with `none` modelling a panic.  Asynchronous work is embedded
as follows: dispatching (`perform_search` etc.) changes only the `App`
state (mode → `Downloading` plus a status message); the later completion
of an asynchronous command is a separate step, `applyCommand`, which is
the `AppCommand` match of `run_app` in `src/main.rs` with the outcome of
the contained network operation made explicit.  A reachable state is one
produced from the initial state by any interleaving of key events and
command results (the channel imposes no ordering relative to the UI
mode).
-/

inductive AppMode where
  | search
  | results
  | downloadSelection
  | downloading
  | error (msg : String)
  | help
  deriving Repr, DecidableEq

structure App where
  mode : AppMode
  query : String
  books : List Book
  selected_book_index : Nat
  download_links : List DownloadLink
  download_link_index : Nat
  error_message : String
  results_scroll : Nat
  help_scroll : Nat
  downloading_message : String
  deriving Repr, DecidableEq

inductive ControlFlow where
  | cont
  | exit
  deriving Repr, DecidableEq

/-- Key events: a character with its CONTROL-modifier flag, and the
non-character keys the handlers inspect.  `other` stands for every key
code that only the wildcard arms match. -/
inductive Key where
  | char (c : Char) (ctrl : Bool)
  | enter
  | backspace
  | esc
  | f (n : Nat)
  | down
  | up
  | other
  deriving Repr, DecidableEq

/-- Rust `String::pop`: remove the last character. -/
def strPop (s : String) : String := ⟨s.toList.dropLast⟩

/-- Rust `s.chars().take(n).collect::<String>()`. -/
def strTake (s : String) (n : Nat) : String := ⟨s.toList.take n⟩

def initialApp : App :=
  { mode := .search, query := "", books := [], selected_book_index := 0,
    download_links := [], download_link_index := 0, error_message := "",
    results_scroll := 0, help_scroll := 0, downloading_message := "" }

/-- State effect of `App::perform_search` (the spawned task is modelled
separately). -/
def perform_search (a : App) : App :=
  { a with mode := .downloading, downloading_message := "Searching..." }

/-- State effect of `App::fetch_download_links`; reads
`self.books[self.selected_book_index]`, a panic (`none`) when out of
bounds. -/
def fetch_download_links (a : App) : Option App :=
  (a.books.get? a.selected_book_index).map fun _ =>
    { a with mode := .downloading, downloading_message := "Fetching download links..." }

/-- State effect of `App::perform_download`; reads
`self.download_links[self.download_link_index]` and (unguardedly)
`self.books[self.selected_book_index]` to build the filename. -/
def perform_download (a : App) : Option App :=
  match a.download_links.get? a.download_link_index,
        a.books.get? a.selected_book_index with
  | some _, some book =>
    let filename := strTake book.title 50 ++ " - " ++ book.author.getD "Unknown"
      ++ "." ++ book.format.getD "unknown"
    some { a with mode := .downloading,
                  downloading_message := "Downloading: " ++ filename }
  | _, _ => none

/-- The `Down`/`'j'` arm of the `Results` handler: advance the cursor,
clamped to the last index, auto-scrolling the viewport. -/
def resultsDown (a : App) : App :=
  if a.selected_book_index < a.books.length - 1 then
    let i := a.selected_book_index + 1
    { a with selected_book_index := i,
             results_scroll := if i ≥ a.results_scroll + 10 then a.results_scroll + 1
                               else a.results_scroll }
  else a

/-- The `Up`/`'k'` arm of the `Results` handler. -/
def resultsUp (a : App) : App :=
  if a.selected_book_index > 0 then
    let i := a.selected_book_index - 1
    { a with selected_book_index := i,
             results_scroll := if i < a.results_scroll then i else a.results_scroll }
  else a

/-- The `Down`/`'j'` arm of the `DownloadSelection` handler. -/
def dsDown (a : App) : App :=
  if a.download_link_index < a.download_links.length - 1 then
    { a with download_link_index := a.download_link_index + 1 }
  else a

/-- The `Up`/`'k'` arm of the `DownloadSelection` handler (unconditional
saturating decrement). -/
def dsUp (a : App) : App :=
  { a with download_link_index := a.download_link_index - 1 }

def handle_search_input (a : App) : Key → Option (App × ControlFlow)
  | .char c ctrl =>
    if c = 'c' ∧ ctrl then some (a, .exit)
    else some ({ a with query := a.query.push c }, .cont)
  | .enter =>
    if a.query ≠ "" then some (perform_search a, .cont) else some (a, .cont)
  | .backspace => some ({ a with query := strPop a.query }, .cont)
  | .esc => some (a, .exit)
  | .f n => if n = 1 then some ({ a with mode := .help }, .cont) else some (a, .cont)
  | _ => some (a, .cont)

def handle_results_navigation (a : App) : Key → Option (App × ControlFlow)
  | .down => some (resultsDown a, .cont)
  | .up => some (resultsUp a, .cont)
  | .char c ctrl =>
    if c = 'j' then some (resultsDown a, .cont)
    else if c = 'k' then some (resultsUp a, .cont)
    else if c = 'c' ∧ ctrl then some (a, .exit)
    else some (a, .cont)
  | .enter =>
    if !a.books.isEmpty then (fetch_download_links a).map (·, .cont)
    else some (a, .cont)
  | .esc =>
    some ({ a with mode := .search, query := "", books := [],
                   selected_book_index := 0, results_scroll := 0 }, .cont)
  | .f n => if n = 1 then some ({ a with mode := .help }, .cont) else some (a, .cont)
  | _ => some (a, .cont)

def handle_download_selection (a : App) : Key → Option (App × ControlFlow)
  | .down => some (dsDown a, .cont)
  | .up => some (dsUp a, .cont)
  | .char c ctrl =>
    if c = 'j' then some (dsDown a, .cont)
    else if c = 'k' then some (dsUp a, .cont)
    else if c = 'c' ∧ ctrl then some (a, .exit)
    else some (a, .cont)
  | .enter =>
    if !a.download_links.isEmpty then (perform_download a).map (·, .cont)
    else some (a, .cont)
  | .esc =>
    some ({ a with mode := .results, download_links := [],
                   download_link_index := 0 }, .cont)
  | .f n => if n = 1 then some ({ a with mode := .help }, .cont) else some (a, .cont)
  | _ => some (a, .cont)

def handle_error (a : App) : Key → Option (App × ControlFlow)
  | .esc | .enter => some ({ a with mode := .search, error_message := "" }, .cont)
  | .char c ctrl =>
    if c = 'c' ∧ ctrl then some (a, .exit) else some (a, .cont)
  | _ => some (a, .cont)

def handle_downloading (a : App) : Key → Option (App × ControlFlow)
  | .char c ctrl =>
    if c = 'c' ∧ ctrl then some (a, .exit) else some (a, .cont)
  | _ => some (a, .cont)

def handle_help (a : App) : Key → Option (App × ControlFlow)
  | .esc => some ({ a with mode := .search }, .cont)
  | .f n => if n = 1 then some ({ a with mode := .search }, .cont) else some (a, .cont)
  | .down => some ({ a with help_scroll := a.help_scroll + 1 }, .cont)
  | .up => some ({ a with help_scroll := a.help_scroll - 1 }, .cont)
  | .char c ctrl =>
    if c = 'j' then some ({ a with help_scroll := a.help_scroll + 1 }, .cont)
    else if c = 'k' then some ({ a with help_scroll := a.help_scroll - 1 }, .cont)
    else if c = 'c' ∧ ctrl then some (a, .exit)
    else some (a, .cont)
  | _ => some (a, .cont)

/-- `App::handle_keypress`: dispatch on the current mode. -/
def handle_keypress (a : App) (k : Key) : Option (App × ControlFlow) :=
  match a.mode with
  | .search => handle_search_input a k
  | .results => handle_results_navigation a k
  | .downloadSelection => handle_download_selection a k
  | .error _ => handle_error a k
  | .downloading => handle_downloading a k
  | .help => handle_help a k

/-- A completed asynchronous command as processed by the `run_app` loop of
`src/main.rs`: the `AppCommand` variant together with the outcome of the
network/disk operation the corresponding arm performs. -/
inductive CmdResult where
  | searchDone (outcome : Except String (List Book))
  | fetchLinksDone (outcome : Except String (List DownloadLink))
  | downloadDone (outcome : Except String String)
  | showError (msg : String)
  | completeDownload (path : String)
  deriving DecidableEq

/-- The `match command` of `run_app`. -/
def applyCommand (a : App) : CmdResult → App
  | .searchDone (.ok books) =>
    { a with books := books, mode := .results, selected_book_index := 0 }
  | .searchDone (.error e) =>
    let m := "Search error: " ++ e
    { a with error_message := m, mode := .error m }
  | .fetchLinksDone (.ok links) =>
    { a with download_links := links, mode := .downloadSelection,
             download_link_index := 0 }
  | .fetchLinksDone (.error e) =>
    let m := "Error fetching links: " ++ e
    { a with error_message := m, mode := .error m }
  | .downloadDone (.ok path) =>
    { a with downloading_message := "Download complete: " ++ path,
             mode := .search, query := "", books := [], download_links := [] }
  | .downloadDone (.error e) =>
    let m := "Download failed: " ++ e
    { a with error_message := m, mode := .error m }
  | .showError msg =>
    { a with error_message := msg, mode := .error msg }
  | .completeDownload path =>
    { a with downloading_message := "✓ Downloaded to: " ++ path, mode := .search }

/-- States reachable by any sequence of key events and completed
asynchronous command results. -/
inductive Reachable : App → Prop
  | init : Reachable initialApp
  | key {s s' cf} (k : Key) : Reachable s → handle_keypress s k = some (s', cf) →
      Reachable s'
  | cmd {s} (c : CmdResult) : Reachable s → Reachable (applyCommand s c)

/-! ### The spawned tasks of `src/ui/app.rs`

What the background task of `perform_search` (resp.
`fetch_download_links`) actually sends over the command channel for each
outcome of the network operation.  The successful non-empty case sends
nothing: the source reads

`// Note: This is a simplified version for the UI` /
`// In practice, you'd need a channel to send results back`
(resp. `// Channel communication would go here in full implementation`).
-/

def searchTaskCommand : Except String (List Book) → Option CmdResult
  | .error e => some (.showError ("Search error: " ++ e))
  | .ok [] => some (.showError "No results found")
  | .ok (_ :: _) => none

def fetchLinksTaskCommand : Except String (List DownloadLink) → Option CmdResult
  | .error e => some (.showError ("Error fetching links: " ++ e))
  | .ok [] => some (.showError "No download links found")
  | .ok (_ :: _) => none

/-- The application state after a dispatched task completed and its
message (if any) was drained by the `run_app` loop. -/
def afterTask (a : App) : Option CmdResult → App
  | some c => applyCommand a c
  | none => a

/-! ## Shared concrete fixtures -/

/-- A concrete book used to instantiate witnesses. -/
def bkW : Book :=
  { title := "Test Book", author := some "John Doe", year := some "2020",
    language := some "English", format := some "PDF", size := some "1.5MB",
    url := "https://annas-archive.org/md5/1" }

/-! ## Roundtrip lemmas for the cache serialization -/

theorem decodeBook_encodeBook (b : Book) : decodeBook (encodeBook b) = some b := by
  obtain ⟨title, author, year, language, format, size, url⟩ := b
  cases author <;> cases year <;> cases language <;> cases format <;> cases size <;> rfl

theorem decodeBooks_encodeBooks (bs : List Book) :
    decodeBooks (encodeBooks bs) = some bs := by
  induction bs with
  | nil => rfl
  | cons b bs ih =>
    simp only [encodeBooks, decodeBooks, List.map_cons, List.mapM_cons,
      decodeBook_encodeBook, Option.pure_def, Option.bind_eq_bind, Option.some_bind]
    simp only [encodeBooks, decodeBooks] at ih
    rw [ih]
    rfl

/-! ## Claim theorems -/

/-- C10: `SearchCache::get` computes an entry's age with the unsigned
subtraction `now - timestamp` before comparing it to the 24-hour window;
the check is total exactly under the precondition that the stored
timestamp does not exceed the current time, and under that precondition
`get` never fails on the age computation (the second conjunct shows the
underflow case really is a failure). -/
theorem cacheGet_age_total (st : CacheState) (q : String) (now : Nat)
    (h : ∀ row ∈ st, row.query = q → row.timestamp ≤ now) :
    (cacheGet st q now).isSome ∧
      cacheGet [⟨"q", J.null, 10⟩] "q" 5 = none := by
  refine ⟨?_, rfl⟩
  unfold cacheGet
  cases hf : st.find? (fun r => r.query = q) with
  | none => rfl
  | some row =>
    have hq : row.query = q := by
      have := List.find?_some hf
      simpa using this
    have hts : row.timestamp ≤ now := h row (List.mem_of_find?_eq_some hf) hq
    simp only [checkedSub, if_pos hts]
    split
    · rfl
    · split <;> rfl

/-- Witness for C10 at a concrete store. -/
theorem cacheGet_age_total_witness :
    (cacheGet [] "q" 10).isSome ∧ cacheGet [⟨"q", J.null, 10⟩] "q" 5 = none :=
  cacheGet_age_total [] "q" 10 (by simp)

/-- C6: writing a book sequence and reading it back under the same query
within the 24-hour window returns the identical sequence; reading an
entry inserted 25 hours earlier is a miss. -/
theorem cache_roundtrip :
    (∀ (st : CacheState) (q : String) (books : List Book) (tIns now : Nat),
       tIns ≤ now → now - tIns ≤ freshnessWindow →
       cacheGet (cacheSet st q books tIns) q now = some (.ok (some books))) ∧
    (∀ (st : CacheState) (q : String) (books : List Book) (tIns : Nat),
       cacheGet (cacheSet st q books tIns) q (tIns + 25 * 60 * 60) =
         some (.ok none)) := by
  constructor
  · intro st q books tIns now hle hfresh
    unfold cacheGet cacheSet
    rw [List.find?_cons_of_pos _ (by simp)]
    simp only [checkedSub, if_pos hle]
    rw [if_neg (not_lt.mpr hfresh), decodeBooks_encodeBooks]
  · intro st q books tIns
    unfold cacheGet cacheSet
    rw [List.find?_cons_of_pos _ (by simp)]
    have hle : tIns ≤ tIns + 25 * 60 * 60 := Nat.le_add_right _ _
    simp only [checkedSub, if_pos hle]
    rw [if_pos (by simp [freshnessWindow])]

/-- Witness for C6 at a concrete store, query, book list and clock. -/
theorem cache_roundtrip_witness :
    cacheGet (cacheSet [] "q" [bkW] 100) "q" 150 = some (.ok (some [bkW])) ∧
      cacheGet (cacheSet [] "q" [bkW] 100) "q" (100 + 25 * 60 * 60) =
        some (.ok none) :=
  ⟨cache_roundtrip.1 [] "q" [bkW] 100 150 (by decide) (by decide),
   cache_roundtrip.2 [] "q" [bkW] 100⟩

/-- C5: the search fast path returns the first `maxResults` cached books
without the network when the fresh cache entry has at least `maxResults`
books; otherwise the fetch-and-parse path runs, writing back to the cache
exactly when the parsed list is non-empty; and the outcome of the cache
write never influences the value `search` returns. -/
theorem search_cache_behaviour :
    (∀ (books : List Book) (fetched : Except String Node)
       (setR : Except String Unit) (maxR : Nat),
       books.length ≥ maxR →
       search (some (.ok (some books))) fetched setR maxR =
         ⟨.ok (books.take maxR), false, none⟩) ∧
    (∀ (cacheHit : Option (Except String (Option (List Book))))
       (fetched : Except String Node) (setR : Except String Unit) (maxR : Nat),
       (∀ books, cacheHit = some (.ok (some books)) → books.length < maxR) →
       search cacheHit fetched setR maxR = searchFetchPath fetched maxR) ∧
    (∀ (doc : Node) (maxR : Nat),
       searchFetchPath (.ok doc) maxR =
         ⟨.ok (searchGo doc maxR bookSelectors), true,
          if (searchGo doc maxR bookSelectors).isEmpty then none
          else some (searchGo doc maxR bookSelectors)⟩) ∧
    (∀ (e : String) (maxR : Nat),
       searchFetchPath (.error e) maxR = ⟨.error e, true, none⟩) ∧
    (∀ cacheHit fetched s₁ s₂ maxR,
       search cacheHit fetched s₁ maxR = search cacheHit fetched s₂ maxR) := by
  refine ⟨?_, ?_, fun _ _ => rfl, fun _ _ => rfl, fun _ _ _ _ _ => rfl⟩
  · intro books fetched setR maxR h
    simp only [search]
    rw [if_pos h]
  · intro cacheHit fetched setR maxR h
    rcases cacheHit with _ | hit
    · rfl
    · rcases hit with e | ob
      · rfl
      · rcases ob with _ | books
        · rfl
        · simp only [search]
          exact if_neg (by have := h books rfl; omega)

/-- Witness for C5: a two-book cache hit served without the network, and
a cache miss taking the fetch path. -/
theorem search_cache_behaviour_witness :
    search (some (.ok (some [bkW, bkW]))) (.error "net down") (.ok ()) 1 =
      ⟨.ok ([bkW, bkW].take 1), false, none⟩ ∧
    search none (.error "net down") (.ok ()) 1 =
      searchFetchPath (.error "net down") 1 :=
  ⟨search_cache_behaviour.1 [bkW, bkW] (.error "net down") (.ok ()) 1 (by decide),
   search_cache_behaviour.2.1 none (.error "net down") (.ok ()) 1
     (by intro books h; cases h)⟩

/-- C8: a response without a content length fails the download with an
error before the file is touched (no unknown-length fallback), and the
cumulative progress counter never exceeds the advertised total after any
chunk. -/
theorem download_content_length_and_cap :
    (∀ chunks : List Nat, download none chunks = .error "Failed to get content length") ∧
    (∀ (total d : Nat) (chunks : List Nat) (p : Nat),
       p ∈ progressTrace total d chunks → p ≤ total) := by
  refine ⟨fun _ => rfl, ?_⟩
  intro total d chunks
  induction chunks generalizing d with
  | nil => intro p hp; cases hp
  | cons c cs ih =>
    intro p hp
    rcases List.mem_cons.mp hp with h | h
    · subst h; exact Nat.min_le_right _ _
    · exact ih _ p h

/-- Witness for C8 with a concrete chunk stream whose cumulated size
overshoots the advertised total. -/
theorem download_content_length_and_cap_witness :
    download none [7] = .error "Failed to get content length" ∧
      10 ∈ progressTrace 10 0 [4, 5, 6] ∧ 10 ≤ 10 :=
  ⟨download_content_length_and_cap.1 [7], by decide,
   download_content_length_and_cap.2 10 0 [4, 5, 6] 10 (by decide)⟩

/-- C7 counterexample: a `Content-Disposition` header in which a
`filename=` form is present (third `;`-part) nevertheless parses to
nothing, because the preceding `filename*=` part does not continue with
`UTF-8''` and the `?` operator aborts the whole parse — so
`determine_filename` falls through to the timestamp fallback instead of
returning a name. -/
theorem parse_content_disposition_abort_cex :
    parse_content_disposition "attachment; filename*=utf-8''x.pdf; filename=good.pdf" = none ∧
    (splitChar ';' "attachment; filename*=utf-8''x.pdf; filename=good.pdf").map rustTrim =
      ["attachment", "filename*=utf-8''x.pdf", "filename=good.pdf"] ∧
    parse_content_disposition "attachment; filename=good.pdf" = some "good.pdf" ∧
    determine_filename "https://host/dl/" none
      (some "attachment; filename*=utf-8''x.pdf; filename=good.pdf") 42 =
      "downloaded_file_42.tmp" := by
  decide

/-- C7 amended: the filename resolution order is caller name, then URL
segment, then `Content-Disposition`, then timestamp fallback — but step
(3) yields a result for a present `filename=`/`filename*=UTF-8''` form
only when no `filename*=` part with a different charset marker is
scanned first: such a part aborts the header parse with no result. -/
theorem determine_filename_order :
    (∀ url name disp now, determine_filename url (some name) disp now = name) ∧
    (∀ url disp now f, extract_filename_from_url url = some f →
       determine_filename url none disp now = f) ∧
    (∀ url disp now n, extract_filename_from_url url = none →
       parse_content_disposition disp = some n →
       determine_filename url none (some disp) now = n) ∧
    (∀ url disp now, extract_filename_from_url url = none →
       (disp >>= parse_content_disposition) = none →
       determine_filename url none disp now =
         "downloaded_file_" ++ toString now ++ ".tmp") ∧
    (∀ p rest, startsWithStr (rustTrim p) "filename=" = false →
       startsWithStr (rustTrim p) "filename*=" = true →
       stripPre "filename*=UTF-8''" (rustTrim p) = none →
       parse_content_disposition.go (p :: rest) = none) := by
  refine ⟨fun _ _ _ _ => rfl, ?_, ?_, ?_, ?_⟩
  · intro url disp now f h
    simp [determine_filename, h]
  · intro url disp now n h1 h2
    simp [determine_filename, h1, h2]
  · intro url disp now h1 h2
    simp [determine_filename, h1, h2]
  · intro p rest h1 h2 h3
    simp [parse_content_disposition.go, h1, h2, h3]

/-- Witness for C7 at concrete URLs and headers. -/
theorem determine_filename_order_witness :
    determine_filename "https://x/q" (some "given.pdf") none 7 = "given.pdf" ∧
    determine_filename "https://x/file%20a.pdf" none none 7 = "file a.pdf" ∧
    determine_filename "https://x/" none (some "inline; filename=doc.pdf") 7 = "doc.pdf" ∧
    determine_filename "https://x/" none none 7 = "downloaded_file_" ++ toString 7 ++ ".tmp" ∧
    parse_content_disposition.go [" filename*=utf-8''x.pdf", " filename=good.pdf"] = none :=
  ⟨determine_filename_order.1 "https://x/q" "given.pdf" none 7,
   determine_filename_order.2.1 "https://x/file%20a.pdf" none 7 "file a.pdf" (by decide),
   determine_filename_order.2.2.1 "https://x/" "inline; filename=doc.pdf" 7 "doc.pdf"
     (by decide) (by decide),
   determine_filename_order.2.2.2.1 "https://x/" none 7 (by decide) (by decide),
   determine_filename_order.2.2.2.2 " filename*=utf-8''x.pdf" [" filename=good.pdf"]
     (by decide) (by decide) (by decide)⟩

/-- A concrete download link used to instantiate fixtures. -/
def lkW : DownloadLink :=
  { text := "Libgen.li", url := "http://libgen.x/a", source := "LibGen" }

/-- C2: the spawned tasks of `perform_search` / `fetch_download_links`
send a message only for the error and the empty-result outcomes; a
completed task with a non-empty result sends nothing, so the application
stays in `Downloading` instead of moving to `Results` /
`DownloadSelection` (the success arm is an explicit placeholder comment
in the source, and the matching `run_app` arms that would install the
results are never fed). -/
theorem completed_task_stays_downloading :
    searchTaskCommand (.ok [bkW]) = none ∧
    fetchLinksTaskCommand (.ok [lkW]) = none ∧
    (afterTask (perform_search { initialApp with query := "test" })
        (searchTaskCommand (.ok [bkW]))).mode = .downloading ∧
    afterTask (perform_search { initialApp with query := "test" })
        (searchTaskCommand (.ok [bkW])) =
      perform_search { initialApp with query := "test" } ∧
    (afterTask (perform_search { initialApp with query := "test" })
        (fetchLinksTaskCommand (.ok [lkW]))).mode = .downloading ∧
    (afterTask (perform_search { initialApp with query := "test" })
        (searchTaskCommand (.error "boom"))).mode = .error "Search error: boom" ∧
    (afterTask (perform_search { initialApp with query := "test" })
        (searchTaskCommand (.ok []))).mode = .error "No results found" := by
  decide

/-- A document containing nothing any parser selector matches. -/
def docW : Node := .elem { tag := "html" } [.text "nothing to see"]

theorem searchGo_of_no_matches (doc : Node) (maxR : Nat) :
    ∀ sels : List Sel, (∀ s ∈ sels, (select doc s).isEmpty) →
      searchGo doc maxR sels = [] := by
  intro sels
  induction sels with
  | nil => intro _; rfl
  | cons s rest ih =>
    intro h
    have hs : select doc s = [] :=
      List.isEmpty_iff.mp (h s (List.mem_cons_self _ _))
    rw [searchGo, hs]
    simpa using ih fun s' hs' => h s' (List.mem_cons_of_mem _ hs')

theorem sectionLinks_of_no_matches (doc : Node)
    (h : ∀ s ∈ sectionSelectors, (select doc s).isEmpty) :
    sectionLinks doc = [] := by
  have h1 : select doc (.simple { id := some "external-downloads" }) = [] :=
    List.isEmpty_iff.mp (h _ (by simp [sectionSelectors]))
  have h2 : select doc (.simple { classes := ["external-downloads"] }) = [] :=
    List.isEmpty_iff.mp (h _ (by simp [sectionSelectors]))
  have h3 : select doc (.simple { attrEq := some ("data-section", "downloads") }) = [] :=
    List.isEmpty_iff.mp (h _ (by simp [sectionSelectors]))
  simp [sectionLinks, sectionSelectors, h1, h2, h3]

theorem fallbackCandidates_of_no_matches (doc : Node)
    (h : ∀ s ∈ fallbackLinkSelectors, (select doc s).isEmpty) :
    fallbackCandidates doc = [] := by
  have h1 : select doc (.simple { tag := some "a", attrHas := some ("href", "libgen") }) = [] :=
    List.isEmpty_iff.mp (h _ (by simp [fallbackLinkSelectors]))
  have h2 : select doc (.simple { tag := some "a", attrHas := some ("href", "download") }) = [] :=
    List.isEmpty_iff.mp (h _ (by simp [fallbackLinkSelectors]))
  have h3 : select doc (.simple { tag := some "a", attrHas := some ("href", "mirror") }) = [] :=
    List.isEmpty_iff.mp (h _ (by simp [fallbackLinkSelectors]))
  have h4 : select doc (.simple { tag := some "a", attrHas := some ("href", "get.php") }) = [] :=
    List.isEmpty_iff.mp (h _ (by simp [fallbackLinkSelectors]))
  have h5 : select doc (.simple { classes := ["download-link"] }) = [] :=
    List.isEmpty_iff.mp (h _ (by simp [fallbackLinkSelectors]))
  simp [fallbackCandidates, fallbackLinkSelectors, h1, h2, h3, h4, h5]

/-- C9: both parse entry points return successfully on every document —
the Rust bodies have no failing path — and a document in which no
selector matches anything parses to the empty sequence.  (The
string-to-document step is the external `html5ever` parser, which
error-recovers and is total; the quantification is over all documents it
can produce.) -/
theorem parsers_never_fail :
    (∀ (doc : Node) (maxR : Nat), ∃ books, parse_search_results doc maxR = .ok books) ∧
    (∀ doc : Node, ∃ links, parse_download_links doc = .ok links) ∧
    (∀ (doc : Node) (maxR : Nat), (∀ s ∈ bookSelectors, (select doc s).isEmpty) →
       parse_search_results doc maxR = .ok []) ∧
    (∀ doc : Node, (∀ s ∈ sectionSelectors, (select doc s).isEmpty) →
       (∀ s ∈ fallbackLinkSelectors, (select doc s).isEmpty) →
       parse_download_links doc = .ok []) := by
  refine ⟨fun doc maxR => ⟨_, rfl⟩, fun doc => ⟨_, rfl⟩, ?_, ?_⟩
  · intro doc maxR h
    unfold parse_search_results
    rw [searchGo_of_no_matches doc maxR bookSelectors h]
  · intro doc hs hf
    unfold parse_download_links
    rw [sectionLinks_of_no_matches doc hs, fallbackCandidates_of_no_matches doc hf]
    rfl

/-- Witness for C9 on a concrete selector-less document. -/
theorem parsers_never_fail_witness :
    parse_search_results docW 5 = .ok [] ∧ parse_download_links docW = .ok [] :=
  ⟨parsers_never_fail.2.2.1 docW 5 (by decide),
   parsers_never_fail.2.2.2 docW (by decide) (by decide)⟩

/-! ### Deduplication lemmas for the link lists -/

/-- First-occurrence deduplication, stated in the canonical recursive
form: keep the head, drop every later link with the same URL. -/
def dedupFirst : List DownloadLink → List DownloadLink
  | [] => []
  | l :: ls => l :: dedupFirst (ls.filter fun x => x.url ≠ l.url)
termination_by ls => ls.length
decreasing_by
  simp only [List.length_cons]
  exact Nat.lt_succ_of_le (List.length_filter_le _ _)

theorem dlDedup_sublist (seen : List String) (ls : List DownloadLink) :
    (dlDedup seen ls).Sublist ls := by
  induction ls generalizing seen with
  | nil => simp [dlDedup]
  | cons l ls ih =>
    rw [dlDedup]
    split
    · exact (ih seen).trans (List.sublist_cons_self _ _)
    · exact (ih _).cons₂ _

theorem dlDedup_nodup (seen : List String) (ls : List DownloadLink) :
    ((dlDedup seen ls).map (·.url)).Nodup ∧
      ∀ u ∈ (dlDedup seen ls).map (·.url), u ∉ seen := by
  induction ls generalizing seen with
  | nil => simp [dlDedup]
  | cons l ls ih =>
    rw [dlDedup]
    split
    · exact ih seen
    · rename_i hc
      obtain ⟨ih1, ih2⟩ := ih (l.url :: seen)
      refine ⟨?_, ?_⟩
      · simp only [List.map_cons, List.nodup_cons]
        exact ⟨fun hmem => (ih2 _ hmem) (List.mem_cons_self _ _), ih1⟩
      · intro u hu
        simp only [List.map_cons, List.mem_cons] at hu
        rcases hu with rfl | hu
        · intro hmem
          exact hc (by simpa using hmem)
        · exact fun hmem => (ih2 u hu) (List.mem_cons_of_mem _ hmem)

theorem dlDedup_eq_dedupFirst_aux :
    ∀ (n : Nat) (ls : List DownloadLink), ls.length ≤ n → ∀ seen,
      dlDedup seen ls = dedupFirst (ls.filter fun x => !(seen.contains x.url)) := by
  intro n
  induction n with
  | zero =>
    intro ls h seen
    have hnil : ls = [] := List.length_eq_zero.mp (Nat.le_zero.mp h)
    subst hnil
    simp [dlDedup, dedupFirst]
  | succ n ih =>
    intro ls h seen
    cases ls with
    | nil => simp [dlDedup, dedupFirst]
    | cons l ls =>
      rw [dlDedup, List.filter_cons]
      by_cases hc : seen.contains l.url
      · rw [if_pos hc]
        have hfalse : (!(seen.contains l.url)) = false := by rw [hc]; rfl
        rw [hfalse]
        simp only [Bool.false_eq_true, if_false]
        exact ih ls (Nat.le_of_succ_le_succ h) seen
      · have hcf : seen.contains l.url = false := by
          revert hc; cases seen.contains l.url <;> simp
        rw [if_neg hc, hcf]
        simp only [Bool.not_false, if_true]
        rw [dedupFirst]
        congr 1
        rw [ih ls (Nat.le_of_succ_le_succ h) (l.url :: seen)]
        congr 1
        rw [List.filter_filter]
        refine List.filter_congr fun x _ => ?_
        simp only [List.contains_cons, Bool.not_or, ne_eq, decide_not]
        rw [Bool.and_comm]
        by_cases hxl : x.url = l.url
        · have h1 : (x.url == l.url) = true := beq_iff_eq.mpr hxl
          have h2 : decide (x.url = l.url) = true := decide_eq_true hxl
          rw [h1, h2]; simp
        · have h1 : (x.url == l.url) = false := beq_eq_false_iff_ne.mpr hxl
          have h2 : decide (x.url = l.url) = false := decide_eq_false hxl
          rw [h1, h2]; simp

theorem dlDedup_nil_eq_dedupFirst (ls : List DownloadLink) :
    dlDedup [] ls = dedupFirst ls := by
  have h := dlDedup_eq_dedupFirst_aux ls.length ls le_rfl []
  simpa using h

theorem sectionLinks_foldl_aux (doc : Node) :
    ∀ (sels : List Sel) (acc : List DownloadLink),
      sels.foldl
        (fun acc s =>
          match (select doc s).head? with
          | some sec => acc ++ extract_links_from_section sec
          | none => acc)
        acc
      = acc ++ (sels.map fun s =>
          match (select doc s).head? with
          | some sec => extract_links_from_section sec
          | none => []).flatten := by
  intro sels
  induction sels with
  | nil => intro acc; simp
  | cons s rest ih =>
    intro acc
    simp only [List.foldl_cons, List.map_cons, List.flatten_cons]
    cases (select doc s).head? with
    | none => rw [ih]; simp
    | some sec => rw [ih]; simp

/-- C3 counterexample: a page with two distinct external-download
sections, one matched by `#external-downloads` and one by
`.external-downloads`, both containing an anchor with the same URL.  The
section loop has no `break`, so both sections contribute — and each
section deduplicates with its own fresh seen-set, so the identical URL
appears twice in the returned list, refuting both "first hit wins, only
that one section accumulated" and "in every case the links returned from
one fetch are deduplicated by URL". -/
def c3doc : Node :=
  .elem { tag := "html" } [
    .elem { tag := "div", id := some "external-downloads" } [
      .elem { tag := "a", attrs := [("href", "http://libgen.x/a")] } [.text "L1"] ],
    .elem { tag := "div", classes := ["external-downloads"] } [
      .elem { tag := "a", attrs := [("href", "http://libgen.x/a")] } [.text "L2"] ] ]

theorem parse_download_links_cex :
    parse_download_links c3doc =
      .ok [ { text := "L1", url := "http://libgen.x/a", source := "LibGen" },
            { text := "L2", url := "http://libgen.x/a", source := "LibGen" } ] := by
  decide

/-- C3 amended: `parse_download_links` accumulates, across **all three**
section selectors, the links of the first element each selector matches
(no break after a hit), each section deduplicated only within itself by
first occurrence; only if no section contributes any link does it scan
the whole document across all fallback selectors, and that scan is
deduplicated globally by URL, first occurrence winning, insertion order
preserved (`dedupFirst` form; the result is a `Sublist` of the candidate
sequence with pairwise distinct URLs). -/
theorem parse_download_links_structure :
    (∀ doc : Node, parse_download_links doc =
       .ok (if (sectionLinks doc).isEmpty then dlDedup [] (fallbackCandidates doc)
            else sectionLinks doc)) ∧
    (∀ doc : Node, sectionLinks doc = (sectionSelectors.map fun s =>
       match (select doc s).head? with
       | some sec => extract_links_from_section sec
       | none => []).flatten) ∧
    (∀ sec : Loc, extract_links_from_section sec = dedupFirst (sectionCandidates sec)) ∧
    (∀ ls : List DownloadLink, dlDedup [] ls = dedupFirst ls) ∧
    (∀ (seen : List String) (ls : List DownloadLink),
       ((dlDedup seen ls).map (·.url)).Nodup) ∧
    (∀ (seen : List String) (ls : List DownloadLink), (dlDedup seen ls).Sublist ls) := by
  refine ⟨fun _ => rfl, ?_, ?_, dlDedup_nil_eq_dedupFirst,
    fun seen ls => (dlDedup_nodup seen ls).1, dlDedup_sublist⟩
  · intro doc
    unfold sectionLinks
    rw [sectionLinks_foldl_aux doc sectionSelectors []]
    simp
  · intro sec
    unfold extract_links_from_section
    exact dlDedup_nil_eq_dedupFirst _

/-- C1 counterexample: a title anchor matched by the first selector, with
a non-empty title and an `href`, but with no container-class ancestor
within 5 levels.  The claim says such a book is kept with its title and
absolute URL and `None` metadata; `extract_book_info` instead propagates
the `find_book_container` failure through `?` and the book is dropped. -/
def c1doc : Node :=
  .elem { tag := "html" } [
    .elem { tag := "body" } [
      .elem { tag := "div" } [
        .elem { tag := "a", classes := ["js-vim-focus", "custom-a"],
                attrs := [("href", "/md5/x")] } [.text "Test Book"] ] ] ]

theorem parse_search_results_cex :
    parse_search_results c1doc 10 = .ok [] ∧
    ((select c1doc (.simple { tag := some "a", classes := ["js-vim-focus", "custom-a"] })).map
      fun loc => (rustTrim (textOfList loc.children), loc.data.attr "href")) =
      [("Test Book", some "/md5/x")] := by
  decide

/-- C1 amended: each anchor selected by the first selector with any
match is mapped through the extractor on the text of the container found
by walking up at most 5 ancestor levels for a container-class signal —
but an anchor with no such container is dropped entirely, as are anchors
with empty title text or without an `href` attribute. -/
theorem parse_search_results_amended :
    (∀ loc : Loc, find_book_container loc =
       (loc.ancestors.take 5).find? fun p => isBookContainer p.1) ∧
    (∀ loc : Loc, loc.data.attr "href" = none → extract_book_info loc = none) ∧
    (∀ loc : Loc, rustTrim (textOfList loc.children) = "" →
       extract_book_info loc = none) ∧
    (∀ loc : Loc, find_book_container loc = none → extract_book_info loc = none) ∧
    (∀ (loc : Loc) (href : String) (container : ElemData × List Node),
       loc.data.attr "href" = some href →
       rustTrim (textOfList loc.children) ≠ "" →
       find_book_container loc = some container →
       extract_book_info loc = some
         { title := rustTrim (textOfList loc.children)
           author := extract_author (elemText container) (rustTrim (textOfList loc.children))
           year := extract_year (elemText container)
           language := extract_language (elemText container)
           format := extract_format (elemText container)
           size := extract_size (elemText container)
           url := "https://annas-archive.org" ++ href }) ∧
    (∀ (doc : Node) (maxR : Nat) (s : Sel) (rest : List Sel),
       ((select doc s).take (maxR * 2)).isEmpty = true →
       searchGo doc maxR (s :: rest) = searchGo doc maxR rest) ∧
    (∀ (doc : Node) (maxR : Nat) (s : Sel) (rest : List Sel),
       ((select doc s).take (maxR * 2)).isEmpty = false →
       searchGo doc maxR (s :: rest) =
         (((select doc s).take (maxR * 2)).take maxR).filterMap extract_book_info) ∧
    (∀ (doc : Node) (maxR : Nat),
       parse_search_results doc maxR = .ok (searchGo doc maxR bookSelectors)) := by
  refine ⟨fun _ => rfl, ?_, ?_, ?_, ?_, ?_, ?_, fun _ _ => rfl⟩
  · intro loc h
    unfold extract_book_info
    rw [h]
  · intro loc h
    unfold extract_book_info
    cases loc.data.attr "href" with
    | none => rfl
    | some href => simp [h]
  · intro loc h
    unfold extract_book_info
    cases loc.data.attr "href" with
    | none => rfl
    | some href =>
      by_cases ht : rustTrim (textOfList loc.children) = ""
      · simp [ht]
      · simp [ht, h]
  · intro loc href container h1 h2 h3
    unfold extract_book_info
    rw [h1]
    simp [h2, h3]
  · intro doc maxR s rest h
    rw [searchGo]
    simp only [h, if_true]
  · intro doc maxR s rest h
    rw [searchGo]
    simp only [h, Bool.false_eq_true, if_false]

/-- A selected anchor with a `book-item` container ancestor, for the C1
witness. -/
def locW : Loc :=
  ⟨{ tag := "a", classes := ["js-vim-focus", "custom-a"], attrs := [("href", "/md5/7")] },
   [.text "T"],
   [({ tag := "div", classes := ["book-item"] }, [.text "T\nJohn Doe\n2020\nPDF"])]⟩

/-- A selected anchor with no ancestors at all, for the C1 witness. -/
def locNoC : Loc :=
  ⟨{ tag := "a", attrs := [("href", "/md5/8")] }, [.text "U"], []⟩

/-! ### State-machine lemmas for the interaction controller -/

/-- The cursor half of the claimed invariant that the code actually
maintains: each cursor is in bounds whenever its list is non-empty. -/
def CursorInv (a : App) : Prop :=
  (a.books ≠ [] → a.selected_book_index < a.books.length) ∧
  (a.download_links ≠ [] → a.download_link_index < a.download_links.length)

theorem get?_isSome_of_lt {α : Type} (l : List α) (n : Nat) (h : n < l.length) :
    (l.get? n).isSome := by
  cases hg : l.get? n with
  | none => exact absurd (List.get?_eq_none.mp hg) (Nat.not_le.mpr h)
  | some _ => rfl

theorem resultsDown_inv (a : App) (h : CursorInv a) : CursorInv (resultsDown a) := by
  obtain ⟨h1, h2⟩ := h
  unfold resultsDown
  split_ifs with hlt
  · refine ⟨fun _ => ?_, h2⟩
    dsimp only
    omega
  · exact ⟨h1, h2⟩

theorem resultsUp_inv (a : App) (h : CursorInv a) : CursorInv (resultsUp a) := by
  obtain ⟨h1, h2⟩ := h
  unfold resultsUp
  split_ifs with hpos
  · refine ⟨fun hb => ?_, h2⟩
    have hlt := h1 hb
    dsimp only
    omega
  · exact ⟨h1, h2⟩

theorem dsDown_inv (a : App) (h : CursorInv a) : CursorInv (dsDown a) := by
  obtain ⟨h1, h2⟩ := h
  unfold dsDown
  split_ifs with hlt
  · refine ⟨h1, fun _ => ?_⟩
    dsimp only
    omega
  · exact ⟨h1, h2⟩

theorem dsUp_inv (a : App) (h : CursorInv a) : CursorInv (dsUp a) := by
  obtain ⟨h1, h2⟩ := h
  unfold dsUp
  refine ⟨h1, fun hl => ?_⟩
  have hlt := h2 hl
  dsimp only
  omega

theorem handle_search_input_inv (a a' : App) (cf : ControlFlow) (k : Key)
    (h : handle_search_input a k = some (a', cf)) (hI : CursorInv a) : CursorInv a' := by
  cases k <;> simp only [handle_search_input] at h <;>
    first
    | (obtain ⟨rfl, rfl⟩ := Prod.mk.injEq .. ▸ Option.some.injEq .. ▸ h
       exact hI)
    | (split_ifs at h <;> obtain ⟨rfl, rfl⟩ := Option.some.injEq .. ▸ h <;>
       exact hI)

theorem handle_error_inv (a a' : App) (cf : ControlFlow) (k : Key)
    (h : handle_error a k = some (a', cf)) (hI : CursorInv a) : CursorInv a' := by
  cases k <;> simp only [handle_error] at h <;>
    first
    | (obtain ⟨rfl, rfl⟩ := Option.some.injEq .. ▸ h; exact hI)
    | (split_ifs at h <;> obtain ⟨rfl, rfl⟩ := Option.some.injEq .. ▸ h <;> exact hI)

theorem handle_downloading_inv (a a' : App) (cf : ControlFlow) (k : Key)
    (h : handle_downloading a k = some (a', cf)) (hI : CursorInv a) : CursorInv a' := by
  cases k <;> simp only [handle_downloading] at h <;>
    first
    | (obtain ⟨rfl, rfl⟩ := Option.some.injEq .. ▸ h; exact hI)
    | (split_ifs at h <;> obtain ⟨rfl, rfl⟩ := Option.some.injEq .. ▸ h <;> exact hI)

theorem handle_help_inv (a a' : App) (cf : ControlFlow) (k : Key)
    (h : handle_help a k = some (a', cf)) (hI : CursorInv a) : CursorInv a' := by
  cases k <;> simp only [handle_help] at h <;>
    first
    | (obtain ⟨rfl, rfl⟩ := Option.some.injEq .. ▸ h; exact hI)
    | (split_ifs at h <;> obtain ⟨rfl, rfl⟩ := Option.some.injEq .. ▸ h <;> exact hI)

theorem handle_results_navigation_inv (a a' : App) (cf : ControlFlow) (k : Key)
    (h : handle_results_navigation a k = some (a', cf)) (hI : CursorInv a) :
    CursorInv a' := by
  cases k with
  | down =>
    obtain ⟨rfl, rfl⟩ := Option.some.injEq .. ▸ h
    exact resultsDown_inv a hI
  | up =>
    obtain ⟨rfl, rfl⟩ := Option.some.injEq .. ▸ h
    exact resultsUp_inv a hI
  | char c ctrl =>
    simp only [handle_results_navigation] at h
    split_ifs at h <;> obtain ⟨rfl, rfl⟩ := Option.some.injEq .. ▸ h
    · exact resultsDown_inv a hI
    · exact resultsUp_inv a hI
    · exact hI
    · exact hI
  | enter =>
    simp only [handle_results_navigation] at h
    split_ifs at h with hb
    · cases hf : a.books.get? a.selected_book_index with
      | none => rw [fetch_download_links, hf] at h; cases h
      | some b =>
        rw [fetch_download_links, hf] at h
        obtain ⟨rfl, rfl⟩ := Option.some.injEq .. ▸ h
        exact hI
    · obtain ⟨rfl, rfl⟩ := Option.some.injEq .. ▸ h
      exact hI
  | esc =>
    obtain ⟨rfl, rfl⟩ := Option.some.injEq .. ▸ h
    exact ⟨fun hb => absurd rfl hb, hI.2⟩
  | backspace =>
    obtain ⟨rfl, rfl⟩ := Option.some.injEq .. ▸ h
    exact hI
  | f n =>
    simp only [handle_results_navigation] at h
    split_ifs at h <;> obtain ⟨rfl, rfl⟩ := Option.some.injEq .. ▸ h <;> exact hI
  | other =>
    obtain ⟨rfl, rfl⟩ := Option.some.injEq .. ▸ h
    exact hI

theorem handle_download_selection_inv (a a' : App) (cf : ControlFlow) (k : Key)
    (h : handle_download_selection a k = some (a', cf)) (hI : CursorInv a) :
    CursorInv a' := by
  cases k with
  | down =>
    obtain ⟨rfl, rfl⟩ := Option.some.injEq .. ▸ h
    exact dsDown_inv a hI
  | up =>
    obtain ⟨rfl, rfl⟩ := Option.some.injEq .. ▸ h
    exact dsUp_inv a hI
  | char c ctrl =>
    simp only [handle_download_selection] at h
    split_ifs at h <;> obtain ⟨rfl, rfl⟩ := Option.some.injEq .. ▸ h
    · exact dsDown_inv a hI
    · exact dsUp_inv a hI
    · exact hI
    · exact hI
  | enter =>
    simp only [handle_download_selection] at h
    split_ifs at h with hb
    · unfold perform_download at h
      cases hl : a.download_links.get? a.download_link_index with
      | none => rw [hl] at h; cases h
      | some l =>
        cases hbk : a.books.get? a.selected_book_index with
        | none => rw [hl, hbk] at h; cases h
        | some bk =>
          rw [hl, hbk] at h
          obtain ⟨rfl, rfl⟩ := Option.some.injEq .. ▸ h
          exact hI
    · obtain ⟨rfl, rfl⟩ := Option.some.injEq .. ▸ h
      exact hI
  | esc =>
    obtain ⟨rfl, rfl⟩ := Option.some.injEq .. ▸ h
    exact ⟨hI.1, fun hl => absurd rfl hl⟩
  | backspace =>
    obtain ⟨rfl, rfl⟩ := Option.some.injEq .. ▸ h
    exact hI
  | f n =>
    simp only [handle_download_selection] at h
    split_ifs at h <;> obtain ⟨rfl, rfl⟩ := Option.some.injEq .. ▸ h <;> exact hI
  | other =>
    obtain ⟨rfl, rfl⟩ := Option.some.injEq .. ▸ h
    exact hI

theorem handle_keypress_inv (a a' : App) (cf : ControlFlow) (k : Key)
    (h : handle_keypress a k = some (a', cf)) (hI : CursorInv a) : CursorInv a' := by
  unfold handle_keypress at h
  split at h
  · exact handle_search_input_inv a a' cf k h hI
  · exact handle_results_navigation_inv a a' cf k h hI
  · exact handle_download_selection_inv a a' cf k h hI
  · exact handle_error_inv a a' cf k h hI
  · exact handle_downloading_inv a a' cf k h hI
  · exact handle_help_inv a a' cf k h hI

theorem applyCommand_inv (a : App) (c : CmdResult) (hI : CursorInv a) :
    CursorInv (applyCommand a c) := by
  obtain ⟨h1, h2⟩ := hI
  cases c with
  | searchDone o =>
    cases o with
    | error e => exact ⟨h1, h2⟩
    | ok books =>
      exact ⟨fun hb => by simpa using List.length_pos.mpr hb, h2⟩
  | fetchLinksDone o =>
    cases o with
    | error e => exact ⟨h1, h2⟩
    | ok links =>
      exact ⟨h1, fun hl => by simpa using List.length_pos.mpr hl⟩
  | downloadDone o =>
    cases o with
    | error e => exact ⟨h1, h2⟩
    | ok path =>
      exact ⟨fun hb => absurd rfl hb, fun hl => absurd rfl hl⟩
  | showError msg => exact ⟨h1, h2⟩
  | completeDownload path => exact ⟨h1, h2⟩

theorem reachable_cursorInv (a : App) (h : Reachable a) : CursorInv a := by
  induction h with
  | init => exact ⟨fun hb => absurd rfl hb, fun hl => absurd rfl hl⟩
  | key k hr hstep ih => exact handle_keypress_inv _ _ _ k hstep ih
  | cmd c hr ih => exact applyCommand_inv _ c ih

theorem handle_keypress_total (a : App) (k : Key) (hI : CursorInv a)
    (hDS : a.mode = .downloadSelection → a.books ≠ []) :
    (handle_keypress a k).isSome := by
  unfold handle_keypress
  cases hm : a.mode with
  | search =>
    cases k <;> simp only [handle_search_input] <;>
      first | rfl | (split_ifs <;> rfl)
  | results =>
    cases k <;> simp only [handle_results_navigation]
    case enter =>
      split_ifs with hb
      · have hne : a.books ≠ [] := by
          intro hnil
          rw [hnil] at hb
          simp at hb
        have hlt := hI.1 hne
        unfold fetch_download_links
        cases hg : a.books.get? a.selected_book_index with
        | none => exact absurd (List.get?_eq_none.mp hg) (Nat.not_le.mpr hlt)
        | some b => rfl
      · rfl
    all_goals first | rfl | (split_ifs <;> rfl)
  | downloadSelection =>
    cases k <;> simp only [handle_download_selection]
    case enter =>
      split_ifs with hb
      · have hlne : a.download_links ≠ [] := by
          intro hnil
          rw [hnil] at hb
          simp at hb
        have hllt := hI.2 hlne
        have hbne : a.books ≠ [] := hDS hm
        have hblt := hI.1 hbne
        unfold perform_download
        cases hl : a.download_links.get? a.download_link_index with
        | none => exact absurd (List.get?_eq_none.mp hl) (Nat.not_le.mpr hllt)
        | some l =>
          cases hbk : a.books.get? a.selected_book_index with
          | none => exact absurd (List.get?_eq_none.mp hbk) (Nat.not_le.mpr hblt)
          | some bk => rfl
      · rfl
    all_goals first | rfl | (split_ifs <;> rfl)
  | error msg =>
    cases k <;> simp only [handle_error] <;>
      first | rfl | (split_ifs <;> rfl)
  | downloading =>
    cases k <;> simp only [handle_downloading] <;>
      first | rfl | (split_ifs <;> rfl)
  | help =>
    cases k <;> simp only [handle_help] <;>
      first | rfl | (split_ifs <;> rfl)

/-- C4 counterexample: the claimed invariant and totality both fail on
reachable states.  (1) A successful Search result installs two books;
pressing Down moves the cursor to 1; a completed Download then clears the
book list **without resetting the cursor**, leaving a reachable state
with an empty list and cursor 1 (the claim demands 0).  (2) A
FetchDownloadLinks result delivered while the book list is empty puts the
app in DownloadSelection with no books; pressing Enter there indexes
`self.books[self.selected_book_index]` unguardedly, which panics
(`handle_keypress` is `none`), so the key-handling step is not total on
reachable states. -/
theorem app_invariant_cex :
    handle_keypress (applyCommand initialApp (.searchDone (.ok [bkW, bkW]))) .down =
      some ({ applyCommand initialApp (.searchDone (.ok [bkW, bkW])) with
              selected_book_index := 1 }, .cont) ∧
    (applyCommand { applyCommand initialApp (.searchDone (.ok [bkW, bkW])) with
        selected_book_index := 1 } (.downloadDone (.ok "b.pdf"))).books = [] ∧
    (applyCommand { applyCommand initialApp (.searchDone (.ok [bkW, bkW])) with
        selected_book_index := 1 } (.downloadDone (.ok "b.pdf"))).selected_book_index = 1 ∧
    Reachable (applyCommand { applyCommand initialApp (.searchDone (.ok [bkW, bkW])) with
        selected_book_index := 1 } (.downloadDone (.ok "b.pdf"))) ∧
    Reachable (applyCommand initialApp (.fetchLinksDone (.ok [lkW]))) ∧
    handle_keypress (applyCommand initialApp (.fetchLinksDone (.ok [lkW]))) .enter =
      none := by
  refine ⟨by decide, by decide, by decide, ?_, Reachable.cmd _ Reachable.init, by decide⟩
  have r1 : Reachable (applyCommand initialApp (.searchDone (.ok [bkW, bkW]))) :=
    Reachable.cmd _ Reachable.init
  have hstep : handle_keypress (applyCommand initialApp (.searchDone (.ok [bkW, bkW]))) .down =
      some ({ applyCommand initialApp (.searchDone (.ok [bkW, bkW])) with
              selected_book_index := 1 }, .cont) := by decide
  have r2 : Reachable { applyCommand initialApp (.searchDone (.ok [bkW, bkW])) with
      selected_book_index := 1 } :=
    Reachable.key .down r1 hstep
  exact Reachable.cmd _ r2

/-- C4 amended: in every reachable state each cursor is strictly below
its list's length whenever that list is non-empty (but not necessarily 0
when the list is empty: a completed Download clears the lists without
resetting the cursors); and the key-handling step is defined for every
(mode, key) pair in every reachable state in which `DownloadSelection`
mode implies a non-empty book list — the one exception being the
unguarded book indexing of Enter in `DownloadSelection`. -/
theorem app_reachable_invariant (a : App) (h : Reachable a) :
    (a.books ≠ [] → a.selected_book_index < a.books.length) ∧
    (a.download_links ≠ [] → a.download_link_index < a.download_links.length) ∧
    (∀ k : Key, (a.mode = .downloadSelection → a.books ≠ []) →
       (handle_keypress a k).isSome) := by
  have hI := reachable_cursorInv a h
  exact ⟨hI.1, hI.2, fun k hDS => handle_keypress_total a k hI hDS⟩

/-- Witness for C4 at the initial state. -/
theorem app_reachable_invariant_witness :
    (initialApp.books ≠ [] → initialApp.selected_book_index < initialApp.books.length) ∧
    (handle_keypress initialApp .enter).isSome :=
  ⟨(app_reachable_invariant initialApp Reachable.init).1,
   (app_reachable_invariant initialApp Reachable.init).2.2 .enter (by decide)⟩

/-- Witness for C1 at two concrete anchors: one dropped for want of a
container, one extracted from its container text. -/
theorem parse_search_results_amended_witness :
    extract_book_info locNoC = none ∧
    extract_book_info locW = some
      { title := "T", author := some "John Doe", year := some "2020",
        language := none, format := some "PDF", size := none,
        url := "https://annas-archive.org/md5/7" } := by
  constructor
  · exact parse_search_results_amended.2.2.2.1 locNoC rfl
  · rw [parse_search_results_amended.2.2.2.2.1 locW "/md5/7"
      ({ tag := "div", classes := ["book-item"] }, [.text "T\nJohn Doe\n2020\nPDF"])
      (by decide) (by decide) rfl]
    decide

end AnnaDl
